import Mathlib

/-!
A shallow embedding of the MLIR context-owned uniquing and IR-core
subsystem of this repository (mlir/lib/IR/MLIRContext.cpp,
mlir/include/mlir/IR/MLIRContext.h, DialectRegistry.h, Operation.h,
mlir/include/mlir/Support/TypeID.h), together with theorems checking
the specification's claims about it.

Pointers are modelled as `Nat` identities, the `DenseMap`/`std::map`
tables as association lists, and the fatal `report_fatal_error` exits
as an `Except` error result.  Stateful member functions become explicit
state passing on `MLIRContextImpl`.
-/

namespace Mlir

/-- Lookup in an association list; models `DenseMap::find` /
`std::map::find` keyed lookup. -/
def alistFind {κ α : Type} [DecidableEq κ] (m : List (κ × α)) (k : κ) :
    Option α :=
  match m with
  | [] => none
  | (k', v) :: rest => if k' = k then some v else alistFind rest k

/-- Keyed store `m[k] = v`: replaces the entry for `k` if present,
otherwise appends a fresh entry (models map insertion). -/
def alistInsert {κ α : Type} [DecidableEq κ] (m : List (κ × α)) (k : κ)
    (v : α) : List (κ × α) :=
  match m with
  | [] => [(k, v)]
  | (k', v') :: rest =>
      if k' = k then (k, v) :: rest else (k', v') :: alistInsert rest k v

/-- Key-membership test on an association list. -/
def alistContains {κ α : Type} [DecidableEq κ] (m : List (κ × α)) (k : κ) :
    Bool :=
  (alistFind m k).isSome

/-- The `mlir::TypeID` of mlir/include/mlir/Support/TypeID.h: a wrapper
around a pointer to an 8-aligned `Storage` object.  The storage address
is modelled as a `Nat`. -/
structure TypeID where
  storage : Nat
deriving DecidableEq, Repr

/-- Source `TypeID::operator==` (TypeID.h lines 182-184): two TypeIDs
compare equal exactly when their storage pointers are equal. -/
def TypeID.beqStorage (a b : TypeID) : Bool :=
  a.storage == b.storage

/-- The process-wide state behind `detail::FallbackTypeIDResolver`
(TypeID.h lines 234-238): a table keyed by type name holding the address
of the storage registered for that name, plus the bump allocator that
hands out fresh storage addresses. -/
structure TypeIDRegistry where
  table : List (String × Nat)
  nextAddr : Nat
deriving DecidableEq, Repr

/-- Modelled from the spec: the body of
`FallbackTypeIDResolver::registerImplicitTypeID` lives in
lib/Support/TypeID.cpp, which is not part of this excerpt.  Per the
spec, the fallback "resolves a TypeID by looking up (and if absent,
registering) the type's demangled name in a global string-keyed table";
a fresh registration takes its storage address from the allocator. -/
def registerImplicitTypeID (reg : TypeIDRegistry) (name : String) :
    TypeID × TypeIDRegistry :=
  match alistFind reg.table name with
  | some addr => (⟨addr⟩, reg)
  | none =>
      (⟨reg.nextAddr⟩,
       { table := alistInsert reg.table name reg.nextAddr
         nextAddr := reg.nextAddr + 1 })

/-- `TypeID::get<T>` through the fallback
`detail::TypeIDResolver<T>::resolveTypeID` (TypeID.h lines 265-270 and
304-307).  The C++ type `T` is represented by its type name (the
argument `llvm::getTypeName<T>()` of the source).  The function-local
`static TypeID id` caching of the source is subsumed by the registry
state: a later call finds the name in the table and returns the same
id. -/
def TypeID.get (reg : TypeIDRegistry) (name : String) :
    TypeID × TypeIDRegistry :=
  registerImplicitTypeID reg name

/-- Well-formedness of the fallback registry: every registered storage
address was previously handed out by the bump allocator (so it is below
`nextAddr`), and no storage address is registered for two names.  This
holds for the empty registry and is preserved by `TypeID.get`. -/
def TypeIDRegistry.Wf (reg : TypeIDRegistry) : Prop :=
  (∀ p ∈ reg.table, p.2 < reg.nextAddr) ∧
  reg.table.Pairwise (fun p q => p.2 ≠ q.2)

/-- The initial, empty fallback registry. -/
def TypeIDRegistry.empty : TypeIDRegistry :=
  { table := [], nextAddr := 0 }

/-- The builtin float types cached by `MLIRContextImpl` (MLIRContext.cpp
lines 357-374). -/
inductive FloatKind where
  | f4E2M1FN | f6E2M3FN | f6E3M2FN
  | f8E5M2 | f8E4M3 | f8E4M3FN | f8E5M2FNUZ | f8E4M3FNUZ
  | f8E4M3B11FNUZ | f8E3M4 | f8E8M0FNU
  | bf16 | f16 | tf32 | f32 | f64 | f80 | f128
deriving DecidableEq, Repr

/-- `IntegerType::SignednessSemantics`. -/
inductive SignednessSemantics where
  | Signless | Signed | Unsigned
deriving DecidableEq, Repr

/-- The builtin types this development needs: the cached float types,
the index type, parametric integer types and the none type. -/
inductive BuiltinType where
  | float (kind : FloatKind)
  | index
  | integer (width : Nat) (signedness : SignednessSemantics)
  | noneTy
deriving DecidableEq, Repr

/-- The builtin attributes cached by the context constructor
(MLIRContext.cpp lines 394-404).  A bool attribute carries the integer
type it was built over, mirroring
`IntegerAttr::getBoolAttrUnchecked(impl->int1Ty, ...)` referencing a
cached type. -/
inductive BuiltinAttr where
  | unknownLoc
  | boolAttr (ty : BuiltinType) (value : Bool)
  | unit
  | emptyDictionary
  | emptyString
deriving DecidableEq, Repr

/-- A construction event of a uniqued storage instance; the context
records these so that the order and multiplicity of singleton-cache
construction can be stated. -/
inductive InitEvent where
  | typeEvent (t : BuiltinType)
  | attrEvent (a : BuiltinAttr)
deriving DecidableEq, Repr

/-- Whether an init event constructed a type (as opposed to an
attribute). -/
def InitEvent.isTypeEvent : InitEvent → Bool
  | .typeEvent _ => true
  | .attrEvent _ => false

/-- Holds when every type-construction event of the log precedes every
attribute-construction event: after the leading run of type events no
further type event occurs. -/
def typesPrecedeAttrs (log : List InitEvent) : Bool :=
  (log.dropWhile (fun e => e.isTypeEvent)).all (fun e => !e.isTypeEvent)

/-- A loaded `mlir::Dialect` instance owned by a context.  `instanceId`
models the heap pointer identity of the `unique_ptr<Dialect>` contents;
`dialectNamespace` and `typeID` are the fields every dialect carries
(mlir/include/mlir/IR/Dialect.h). -/
structure Dialect where
  instanceId : Nat
  dialectNamespace : String
  typeID : TypeID
deriving DecidableEq, Repr

/-- The compile-time data that the template
`MLIRContext::getOrLoadDialect<T>()` (MLIRContext.h lines 137-144)
draws from its argument `T`: the static `T::getDialectNamespace()` and
`TypeID::get<T>()`. -/
structure DialectDescriptor where
  name : String
  id : TypeID
deriving DecidableEq, Repr

/-- The data of a `DialectExtensionBase` (DialectRegistry.h lines
46-84) that this development needs: the set of required dialect
namespaces.  The `apply` callback is abstracted: applying an extension
is recorded as an event in the context (see `appliedExtensions`). -/
structure DialectExtensionRec where
  requiredDialects : List String
deriving DecidableEq, Repr

/-- `mlir::DialectRegistry` (DialectRegistry.h lines 159-288): a map
from namespace to the `TypeID` of the registered dialect, plus a
`MapVector` of extensions keyed by extension `TypeID`.  The allocator
function stored alongside each namespace is canonical for registered
dialects — `insert<ConcreteDialect>()` always registers the lambda
`ctx->getOrLoadDialect<ConcreteDialect>()` (lines 171-183) — so it is
fully determined by the `(namespace, TypeID)` pair and is not stored
separately here. -/
structure DialectRegistry where
  registry : List (String × TypeID)
  extensions : List (TypeID × DialectExtensionRec)
deriving DecidableEq, Repr

/-- The empty dialect registry. -/
def DialectRegistry.emptyR : DialectRegistry :=
  { registry := [], extensions := [] }

/-- Modelled from the spec: `DialectRegistry::insert(TypeID, StringRef,
ctor)` is implemented in lib/IR/Dialect.cpp, which is not part of this
excerpt.  Per the spec it "records (TypeID, namespace, allocatorFn)"
into the namespace map; a namespace that is already present keeps its
existing registration (the TypeID-mismatch usage error is "detected at
load time in the Context, not at registry-insert time"). -/
def DialectRegistry.insertD (reg : DialectRegistry) (typeID : TypeID)
    (name : String) : DialectRegistry :=
  if alistContains reg.registry name then reg
  else { reg with registry := alistInsert reg.registry name typeID }

/-- `try_emplace` on the extensions `MapVector` (DialectRegistry.h lines
217-219): appends the entry unless the key is already present. -/
def extTryEmplace (exts : List (TypeID × DialectExtensionRec))
    (k : TypeID) (v : DialectExtensionRec) :
    List (TypeID × DialectExtensionRec) :=
  if alistContains exts k then exts else exts ++ [(k, v)]

/-- `DialectRegistry::appendTo` (DialectRegistry.h lines 211-220):
inserts every namespace registration of `reg` into `dest`, then merges
the extensions with `try_emplace` (an extension TypeID already present
in the destination keeps the destination's copy). -/
def DialectRegistry.appendTo (reg dest : DialectRegistry) :
    DialectRegistry :=
  let dest1 := reg.registry.foldl (fun d p => d.insertD p.2 p.1) dest
  { dest1 with
    extensions := reg.extensions.foldl
      (fun exts p => extTryEmplace exts p.1 p.2) dest1.extensions }

/-- Modelled from the spec: `DialectRegistry::isSubsetOf` is implemented
in lib/IR/Dialect.cpp, which is not part of this excerpt.  Per the spec
it is "true iff every namespace entry and extension of `this` is
present in `rhs`". -/
def DialectRegistry.isSubsetOf (reg rhs : DialectRegistry) : Bool :=
  reg.registry.all (fun p => alistContains rhs.registry p.1) &&
  reg.extensions.all (fun p => alistContains rhs.extensions p.1)

/-- The state of `MLIRContextImpl` (MLIRContext.cpp lines 130-330) that
this development models.  `loadedDialects` maps a namespace to
`some dialect` once loaded, and to `none` while the dialect is being
constructed — the `nullptr` placeholder of the source.  Thread-pool
pointers are modelled as `Nat` identities; `nextDialectId` and
`nextPoolId` model the heap allocator handing out fresh objects.
`initLog` records uniqued-storage constructions (for the singleton
cache claims) and `appliedExtensions` records extension applications. -/
structure MLIRContextImpl where
  loadedDialects : List (String × Option Dialect) := []
  dialectsRegistry : DialectRegistry := DialectRegistry.emptyR
  multiThreadedExecutionContext : Nat := 0
  nextDialectId : Nat := 0
  appliedExtensions : List TypeID := []
  threadingGloballyDisabled : Bool := false
  threadingIsEnabled : Bool := true
  threadPool : Option Nat := none
  ownedThreadPool : Option Nat := none
  nextPoolId : Nat := 0
  uniquersMultithreadingDisabled : Bool := false
  typeTable : List BuiltinType := []
  attrTable : List BuiltinAttr := []
  initLog : List InitEvent := []
  f4E2M1FNTy : Option BuiltinType := none
  f6E2M3FNTy : Option BuiltinType := none
  f6E3M2FNTy : Option BuiltinType := none
  f8E5M2Ty : Option BuiltinType := none
  f8E4M3Ty : Option BuiltinType := none
  f8E4M3FNTy : Option BuiltinType := none
  f8E5M2FNUZTy : Option BuiltinType := none
  f8E4M3FNUZTy : Option BuiltinType := none
  f8E4M3B11FNUZTy : Option BuiltinType := none
  f8E3M4Ty : Option BuiltinType := none
  f8E8M0FNUTy : Option BuiltinType := none
  bf16Ty : Option BuiltinType := none
  f16Ty : Option BuiltinType := none
  tf32Ty : Option BuiltinType := none
  f32Ty : Option BuiltinType := none
  f64Ty : Option BuiltinType := none
  f80Ty : Option BuiltinType := none
  f128Ty : Option BuiltinType := none
  indexTy : Option BuiltinType := none
  int1Ty : Option BuiltinType := none
  int8Ty : Option BuiltinType := none
  int16Ty : Option BuiltinType := none
  int32Ty : Option BuiltinType := none
  int64Ty : Option BuiltinType := none
  int128Ty : Option BuiltinType := none
  noneType : Option BuiltinType := none
  unknownLocAttr : Option BuiltinAttr := none
  falseAttr : Option BuiltinAttr := none
  trueAttr : Option BuiltinAttr := none
  unitAttr : Option BuiltinAttr := none
  emptyDictionaryAttr : Option BuiltinAttr := none
  emptyStringAttr : Option BuiltinAttr := none
deriving DecidableEq, Repr

/-- The type storage uniquer of the context, specialised to the builtin
types this development models.  Contract per the spec (the
`StorageUniquer` implementation is an external collaborator of the
modelled core): return the canonical instance for the requested key,
constructing (interning) it only on first observation of the key.
A construction is recorded in `initLog`. -/
def TypeUniquer.get (impl : MLIRContextImpl) (t : BuiltinType) :
    BuiltinType × MLIRContextImpl :=
  if t ∈ impl.typeTable then (t, impl)
  else
    (t, { impl with
          typeTable := impl.typeTable ++ [t]
          initLog := impl.initLog ++ [.typeEvent t] })

/-- The attribute storage uniquer of the context; same contract as
`TypeUniquer.get`. -/
def AttributeUniquer.get (impl : MLIRContextImpl) (a : BuiltinAttr) :
    BuiltinAttr × MLIRContextImpl :=
  if a ∈ impl.attrTable then (a, impl)
  else
    (a, { impl with
          attrTable := impl.attrTable ++ [a]
          initLog := impl.initLog ++ [.attrEvent a] })

/-- Whether the namespace currently holds a fully loaded dialect in the
context. -/
def isLoadedIn (impl : MLIRContextImpl) (ns : String) : Bool :=
  match alistFind impl.loadedDialects ns with
  | some (some _) => true
  | _ => false

/-- Modelled from the spec: `DialectRegistry::applyExtensions(Dialect*)`
is implemented in lib/IR/Dialect.cpp, which is not part of this
excerpt.  Per the spec, when a dialect finishes loading the registry
extensions requiring it are invoked, and an extension "whose
required-set is not yet fully satisfied" short-circuits to a no-op.
Application itself is abstracted to an event appended to
`appliedExtensions`. -/
def applyExtensionsToDialect (impl : MLIRContextImpl) (dialect : Dialect) :
    MLIRContextImpl :=
  let applicable := impl.dialectsRegistry.extensions.filter
    (fun p => p.2.requiredDialects.contains dialect.dialectNamespace &&
              p.2.requiredDialects.all (fun ns => isLoadedIn impl ns))
  { impl with
    appliedExtensions := impl.appliedExtensions ++ applicable.map (·.1) }

/-- Modelled from the spec: `DialectRegistry::applyExtensions(MLIRContext*)`
is implemented in lib/IR/Dialect.cpp, which is not part of this
excerpt.  For the already loaded dialects it applies the applicable
extensions of `reg` immediately (MLIRContext.cpp lines 469-470); the
not-yet-satisfied ones are no-ops. -/
def DialectRegistry.applyExtensionsToContext (reg : DialectRegistry)
    (impl : MLIRContextImpl) : MLIRContextImpl :=
  let applicable := reg.extensions.filter
    (fun p => p.2.requiredDialects.all (fun ns => isLoadedIn impl ns))
  { impl with
    appliedExtensions := impl.appliedExtensions ++ applicable.map (·.1) }

/-- The fatal `llvm::report_fatal_error` exits of the dialect-loading
path (MLIRContext.cpp lines 554-561, 596-602, 604-608): the process
aborts, modelled as an error result that carries no further state. -/
inductive FatalError where
  | loadingInMultiThreadedContext (dialectNamespace : String)
  | loadingWhileLoading (dialectNamespace : String)
  | dialectNamespaceAlreadyRegistered (dialectNamespace : String)
deriving DecidableEq, Repr

/-- The effect of `loadedDialects.try_emplace(dialectNamespace, nullptr)`
on a namespace not yet present (MLIRContext.cpp line 547): the entry is
initialized to the `nullptr` placeholder that marks the dialect as
currently loading. -/
def installLoadingPlaceholder (impl : MLIRContextImpl) (ns : String) :
    MLIRContextImpl :=
  { impl with loadedDialects := alistInsert impl.loadedDialects ns none }

/-- The tail of the fresh-load path of `MLIRContext::getOrLoadDialect`
(MLIRContext.cpp lines 573-593): store the constructed dialect over the
placeholder (re-resolving the map slot, since `ctor()` may have grown
the table), then apply any matching registry extensions.  The
string-attribute dialect-field refresh of lines 584-589 touches only
the `StringAttrStorage` objects, which are outside this model. -/
def finishDialectLoad (impl : MLIRContextImpl) (ns : String)
    (dialect : Dialect) : MLIRContextImpl :=
  applyExtensionsToDialect
    { impl with loadedDialects := alistInsert impl.loadedDialects ns (some dialect) }
    dialect

/-- `MLIRContext::getOrLoadDialect(StringRef, TypeID, ctor)`
(MLIRContext.cpp lines 540-611).  The constructor callback receives the
context state (its captured `this` in the source) and may itself load
dialects recursively.  Branches, in source order: a fresh namespace
installs the null placeholder, fatals if inside a multi-threaded
execution context, runs `ctor`, stores the result and applies
extensions; a namespace whose entry is still the null placeholder
fatals ("use loadDialect instead of getOrLoadDialect"); a loaded
namespace fatals on TypeID mismatch and otherwise returns the existing
dialect. -/
def MLIRContext.getOrLoadDialect (impl : MLIRContextImpl)
    (dialectNamespace : String) (dialectID : TypeID)
    (ctor : MLIRContextImpl → Except FatalError (Dialect × MLIRContextImpl)) :
    Except FatalError (Dialect × MLIRContextImpl) :=
  match alistFind impl.loadedDialects dialectNamespace with
  | none =>
      if impl.multiThreadedExecutionContext ≠ 0 then
        .error (.loadingInMultiThreadedContext dialectNamespace)
      else
        match ctor (installLoadingPlaceholder impl dialectNamespace) with
        | .error e => .error e
        | .ok (dialect, impl2) =>
            .ok (dialect, finishDialectLoad impl2 dialectNamespace dialect)
  | some none => .error (.loadingWhileLoading dialectNamespace)
  | some (some dialect) =>
      if dialect.typeID ≠ dialectID then
        .error (.dialectNamespaceAlreadyRegistered dialectNamespace)
      else
        .ok (dialect, impl)

/-- The constructor lambda of `getOrLoadDialect<T>()` (MLIRContext.h
lines 140-143), `new T(this)`: allocates a fresh dialect instance of
the described dialect class. -/
def mkDialectCtor (d : DialectDescriptor) (impl : MLIRContextImpl) :
    Except FatalError (Dialect × MLIRContextImpl) :=
  .ok (⟨impl.nextDialectId, d.name, d.id⟩,
       { impl with nextDialectId := impl.nextDialectId + 1 })

/-- `MLIRContext::getOrLoadDialect<T>()` (MLIRContext.h lines 137-144):
dispatches to the string/TypeID overload with `T`'s namespace, TypeID
and allocation lambda. -/
def MLIRContext.getOrLoadDialectT (impl : MLIRContextImpl)
    (d : DialectDescriptor) : Except FatalError (Dialect × MLIRContextImpl) :=
  MLIRContext.getOrLoadDialect impl d.name d.id (mkDialectCtor d)

/-- `MLIRContext::isDialectLoading` (MLIRContext.cpp lines 613-617):
true exactly when the namespace entry exists and is the `nullptr`
placeholder. -/
def MLIRContext.isDialectLoading (impl : MLIRContextImpl) (ns : String) :
    Bool :=
  match alistFind impl.loadedDialects ns with
  | some none => true
  | _ => false

/-- `MLIRContext::loadDialect<Dialect>()` (MLIRContext.h lines 149-155):
does not load the dialect if it is currently loading (recursive load
from the dialect's own initializer), otherwise defers to
`getOrLoadDialect<Dialect>()`. -/
def MLIRContext.loadDialect (impl : MLIRContextImpl)
    (d : DialectDescriptor) : Except FatalError MLIRContextImpl :=
  if MLIRContext.isDialectLoading impl d.name then .ok impl
  else
    match MLIRContext.getOrLoadDialectT impl d with
    | .error e => .error e
    | .ok (_, impl') => .ok impl'

/-- `MLIRContext::getLoadedDialect(StringRef)` (MLIRContext.cpp lines
509-517): `unique_ptr::get()` on the found entry, so a currently
loading (null placeholder) entry also yields null. -/
def MLIRContext.getLoadedDialect (impl : MLIRContextImpl) (name : String) :
    Option Dialect :=
  match alistFind impl.loadedDialects name with
  | some (some d) => some d
  | _ => none

/-- `MLIRContext::getOrLoadDialect(StringRef)` (MLIRContext.cpp lines
520-532): return the loaded dialect if present; otherwise look up the
allocator in the registry — `getDialectAllocator` returns the allocator
"or nullptr if the namespace is not in this registry"
(DialectRegistry.h lines 205-207; its body in lib/IR/Dialect.cpp is not
part of this excerpt) — and run it, or return the null sentinel.  The
allocator of a registered dialect is the canonical
`ctx->getOrLoadDialect<ConcreteDialect>()` lambda. -/
def MLIRContext.getOrLoadDialectByName (impl : MLIRContextImpl)
    (name : String) :
    Except FatalError (Option Dialect × MLIRContextImpl) :=
  match MLIRContext.getLoadedDialect impl name with
  | some dialect => .ok (some dialect, impl)
  | none =>
      match alistFind impl.dialectsRegistry.registry name with
      | none => .ok (none, impl)
      | some tid =>
          match MLIRContext.getOrLoadDialectT impl ⟨name, tid⟩ with
          | .error e => .error e
          | .ok (dialect, impl') => .ok (some dialect, impl')

/-- `MLIRContext::appendDialectRegistry` (MLIRContext.cpp lines
460-471): a registry that is already a subset of the context's registry
is skipped entirely; otherwise it is appended and its applicable
extensions are applied to the already loaded dialects.  (The
debug-build assertion on `multiThreadedExecutionContext` guards usage,
not behavior, and is not modelled.) -/
def MLIRContext.appendDialectRegistry (impl : MLIRContextImpl)
    (registry : DialectRegistry) : MLIRContextImpl :=
  if registry.isSubsetOf impl.dialectsRegistry then impl
  else
    let impl1 := { impl with
      dialectsRegistry := registry.appendTo impl.dialectsRegistry }
    registry.applyExtensionsToContext impl1

/-- `llvm::llvm_is_multithreaded()`: true in an `LLVM_ENABLE_THREADS`
build, which is the configuration modelled here. -/
def llvmIsMultithreaded : Bool := true

/-- `isThreadingGloballyDisabled` (MLIRContext.cpp lines 82-88): the
`--mlir-disable-threading` command-line flag.  The flag is global; it is
carried on the context state here because the process-wide CL option
store is not otherwise modelled. -/
def isThreadingGloballyDisabled (impl : MLIRContextImpl) : Bool :=
  impl.threadingGloballyDisabled

/-- `MLIRContext::isMultithreadingEnabled` (MLIRContext.cpp lines
692-694). -/
def MLIRContext.isMultithreadingEnabled (impl : MLIRContextImpl) : Bool :=
  impl.threadingIsEnabled && llvmIsMultithreaded

/-- `MLIRContext::disableMultithreading` (MLIRContext.cpp lines
697-730).  Overridden entirely by the global
`--mlir-disable-threading` flag; otherwise records the new mode (also
on the uniquers), destroys the thread pool when disabling only if the
pool is internally owned, and when enabling creates a fresh internally
owned pool only if no pool is currently set. -/
def MLIRContext.disableMultithreading (impl : MLIRContextImpl)
    (disable : Bool) : MLIRContextImpl :=
  if isThreadingGloballyDisabled impl then impl
  else
    let impl := { impl with
      threadingIsEnabled := !disable
      uniquersMultithreadingDisabled := disable }
    if disable then
      match impl.ownedThreadPool with
      | some _ => { impl with threadPool := none, ownedThreadPool := none }
      | none => impl
    else
      match impl.threadPool with
      | some _ => impl
      | none =>
          { impl with
            ownedThreadPool := some impl.nextPoolId
            threadPool := some impl.nextPoolId
            nextPoolId := impl.nextPoolId + 1 }

/-- `MLIRContext::enableMultithreading(bool)`: forwards to
`disableMultithreading(!enable)`. -/
def MLIRContext.enableMultithreading (impl : MLIRContextImpl)
    (enable : Bool := true) : MLIRContextImpl :=
  MLIRContext.disableMultithreading impl (!enable)

/-- `MLIRContext::setThreadPool` (MLIRContext.cpp lines 732-738):
installs the externally owned pool (asserted legal only while
multithreading is disabled), resets the owned pool, and re-enables
multithreading.  Ownership is never taken: `ownedThreadPool` stays
empty. -/
def MLIRContext.setThreadPool (impl : MLIRContextImpl) (pool : Nat) :
    MLIRContextImpl :=
  let impl := { impl with threadPool := some pool, ownedThreadPool := none }
  MLIRContext.enableMultithreading impl

/-- The `MLIRContextImpl(bool threadingIsEnabled)` constructor
(MLIRContext.cpp lines 318-323): when threading is enabled a default
thread pool is created and owned. -/
def mkMLIRContextImpl (threadingIsEnabled : Bool) : MLIRContextImpl :=
  if threadingIsEnabled then
    { threadingIsEnabled := true
      ownedThreadPool := some 0
      threadPool := some 0
      nextPoolId := 1 }
  else { threadingIsEnabled := false }

/-- The descriptor of `mlir::BuiltinDialect`: namespace "builtin" (its
class and `getDialectNamespace` live in BuiltinDialect.h, outside this
excerpt); its TypeID storage address is pinned to 0 here. -/
def builtinDialectDescriptor : DialectDescriptor :=
  { name := "builtin", id := ⟨0⟩ }

/-- The `MLIRContext(const DialectRegistry &, Threading)` constructor
(MLIRContext.cpp lines 334-414): build the impl with threading enabled
iff requested and not globally disabled, pre-populate the registry,
pre-load the builtin dialect, then eagerly construct the singleton
caches — all the types first (floats, index, the signless integer
ladder, none), then the attributes (unknown location, the two bool
attributes over the cached `i1`, unit, empty dictionary, empty string).
The diagnostic CL flags and the affine-storage registrations of lines
340-344 and 406-413 are outside this model.  The default-constructed
`dialectsRegistry` starts empty here (its `DialectRegistry()` body is
not part of this excerpt). -/
def MLIRContext.new (registry : DialectRegistry)
    (threadingSetting : Bool) (globallyDisabled : Bool) : MLIRContextImpl :=
  let impl : MLIRContextImpl :=
    { mkMLIRContextImpl (threadingSetting && !globallyDisabled) with
      threadingGloballyDisabled := globallyDisabled }
  let impl := { impl with
    dialectsRegistry := registry.appendTo impl.dialectsRegistry }
  let impl :=
    match MLIRContext.getOrLoadDialectT impl builtinDialectDescriptor with
    | .ok (_, s) => s
    | .error _ => impl
  let (t, impl) := TypeUniquer.get impl (.float .f4E2M1FN)
  let impl := { impl with f4E2M1FNTy := some t }
  let (t, impl) := TypeUniquer.get impl (.float .f6E2M3FN)
  let impl := { impl with f6E2M3FNTy := some t }
  let (t, impl) := TypeUniquer.get impl (.float .f6E3M2FN)
  let impl := { impl with f6E3M2FNTy := some t }
  let (t, impl) := TypeUniquer.get impl (.float .f8E5M2)
  let impl := { impl with f8E5M2Ty := some t }
  let (t, impl) := TypeUniquer.get impl (.float .f8E4M3)
  let impl := { impl with f8E4M3Ty := some t }
  let (t, impl) := TypeUniquer.get impl (.float .f8E4M3FN)
  let impl := { impl with f8E4M3FNTy := some t }
  let (t, impl) := TypeUniquer.get impl (.float .f8E5M2FNUZ)
  let impl := { impl with f8E5M2FNUZTy := some t }
  let (t, impl) := TypeUniquer.get impl (.float .f8E4M3FNUZ)
  let impl := { impl with f8E4M3FNUZTy := some t }
  let (t, impl) := TypeUniquer.get impl (.float .f8E4M3B11FNUZ)
  let impl := { impl with f8E4M3B11FNUZTy := some t }
  let (t, impl) := TypeUniquer.get impl (.float .f8E3M4)
  let impl := { impl with f8E3M4Ty := some t }
  let (t, impl) := TypeUniquer.get impl (.float .f8E8M0FNU)
  let impl := { impl with f8E8M0FNUTy := some t }
  let (t, impl) := TypeUniquer.get impl (.float .bf16)
  let impl := { impl with bf16Ty := some t }
  let (t, impl) := TypeUniquer.get impl (.float .f16)
  let impl := { impl with f16Ty := some t }
  let (t, impl) := TypeUniquer.get impl (.float .tf32)
  let impl := { impl with tf32Ty := some t }
  let (t, impl) := TypeUniquer.get impl (.float .f32)
  let impl := { impl with f32Ty := some t }
  let (t, impl) := TypeUniquer.get impl (.float .f64)
  let impl := { impl with f64Ty := some t }
  let (t, impl) := TypeUniquer.get impl (.float .f80)
  let impl := { impl with f80Ty := some t }
  let (t, impl) := TypeUniquer.get impl (.float .f128)
  let impl := { impl with f128Ty := some t }
  let (t, impl) := TypeUniquer.get impl .index
  let impl := { impl with indexTy := some t }
  let (int1, impl) := TypeUniquer.get impl (.integer 1 .Signless)
  let impl := { impl with int1Ty := some int1 }
  let (t, impl) := TypeUniquer.get impl (.integer 8 .Signless)
  let impl := { impl with int8Ty := some t }
  let (t, impl) := TypeUniquer.get impl (.integer 16 .Signless)
  let impl := { impl with int16Ty := some t }
  let (t, impl) := TypeUniquer.get impl (.integer 32 .Signless)
  let impl := { impl with int32Ty := some t }
  let (t, impl) := TypeUniquer.get impl (.integer 64 .Signless)
  let impl := { impl with int64Ty := some t }
  let (t, impl) := TypeUniquer.get impl (.integer 128 .Signless)
  let impl := { impl with int128Ty := some t }
  let (t, impl) := TypeUniquer.get impl .noneTy
  let impl := { impl with noneType := some t }
  let (a, impl) := AttributeUniquer.get impl .unknownLoc
  let impl := { impl with unknownLocAttr := some a }
  let (a, impl) := AttributeUniquer.get impl (.boolAttr int1 false)
  let impl := { impl with falseAttr := some a }
  let (a, impl) := AttributeUniquer.get impl (.boolAttr int1 true)
  let impl := { impl with trueAttr := some a }
  let (a, impl) := AttributeUniquer.get impl .unit
  let impl := { impl with unitAttr := some a }
  let (a, impl) := AttributeUniquer.get impl .emptyDictionary
  let impl := { impl with emptyDictionaryAttr := some a }
  let (a, impl) := AttributeUniquer.get impl .emptyString
  let impl := { impl with emptyStringAttr := some a }
  impl

/-- A context constructed with an empty registry, threading enabled and
no global threading override. -/
def defaultContext : MLIRContextImpl :=
  MLIRContext.new DialectRegistry.emptyR true false

/-- `IndexType::get` (MLIRContext.cpp lines 1173-1175): a plain read of
the cached instance. -/
def IndexType.get (impl : MLIRContextImpl) : Option BuiltinType :=
  impl.indexTy

/-- `getCachedIntegerType` (MLIRContext.cpp lines 1179-1202): a null
result (`IntegerType()`) for any signedness other than `Signless`, and
for Signless the cached field for widths 1/8/16/32/64/128, null
otherwise. -/
def getCachedIntegerType (width : Nat) (signedness : SignednessSemantics)
    (impl : MLIRContextImpl) : Option BuiltinType :=
  if signedness ≠ .Signless then none
  else
    match width with
    | 1 => impl.int1Ty
    | 8 => impl.int8Ty
    | 16 => impl.int16Ty
    | 32 => impl.int32Ty
    | 64 => impl.int64Ty
    | 128 => impl.int128Ty
    | _ => none

/-- `IntegerType::get` (MLIRContext.cpp lines 1204-1209): return the
cached instance if one exists, otherwise fall through to the storage
uniquer (`Base::get`). -/
def IntegerType.get (impl : MLIRContextImpl) (width : Nat)
    (signedness : SignednessSemantics) : BuiltinType × MLIRContextImpl :=
  match getCachedIntegerType width signedness impl with
  | some cached => (cached, impl)
  | none => TypeUniquer.get impl (.integer width signedness)

/-- `NoneType::get` (MLIRContext.cpp lines 1221-1227): the cached
instance when initialized, otherwise `Base::get` (which can only happen
while the builtin singletons are themselves being initialized). -/
def NoneType.get (impl : MLIRContextImpl) : BuiltinType × MLIRContextImpl :=
  match impl.noneType with
  | some cached => (cached, impl)
  | none => TypeUniquer.get impl .noneTy

/-- `BoolAttr::get` (MLIRContext.cpp lines 1246-1248): a plain read of
one of the two cached bool attributes. -/
def BoolAttr.get (impl : MLIRContextImpl) (value : Bool) :
    Option BuiltinAttr :=
  if value then impl.trueAttr else impl.falseAttr

/-- `UnitAttr::get` (MLIRContext.cpp lines 1250-1252). -/
def UnitAttr.get (impl : MLIRContextImpl) : Option BuiltinAttr :=
  impl.unitAttr

/-- `UnknownLoc::get` (MLIRContext.cpp lines 1254-1256). -/
def UnknownLoc.get (impl : MLIRContextImpl) : Option BuiltinAttr :=
  impl.unknownLocAttr

/-- `DictionaryAttr::getEmpty` (MLIRContext.cpp lines 1265-1267). -/
def DictionaryAttr.getEmpty (impl : MLIRContextImpl) : Option BuiltinAttr :=
  impl.emptyDictionaryAttr

/-- `StringAttr::get(MLIRContext*)` — the empty string attribute
(MLIRContext.cpp lines 1288-1290). -/
def StringAttr.getEmpty (impl : MLIRContextImpl) : Option BuiltinAttr :=
  impl.emptyStringAttr

/-- The two result-storage representations of `detail::OpResultImpl`
(declared in mlir/include/mlir/IR/Value.h, described in Operation.h
lines 96-109): an inline result packs its index into spare bits next to
the type pointer, an out-of-line result carries an explicit extra index
field. -/
inductive OpResultImpl where
  | inlineOpResult (ty : BuiltinType) (index : Nat)
  | outOfLineOpResult (ty : BuiltinType) (outOfLineIndex : Nat)
deriving DecidableEq, Repr

/-- The SSA value type a result defines. -/
def OpResultImpl.resultType : OpResultImpl → BuiltinType
  | .inlineOpResult ty _ => ty
  | .outOfLineOpResult ty _ => ty

/-- Modelled from the spec: `detail::OpResultImpl::getMaxInlineResults`
lives in mlir/include/mlir/IR/Value.h, outside this excerpt.  The
platform-defined inline capacity is 5, per the Operation.h leading
comment (lines 104-106: inline storage "is used for the first 5
results") and the 3 spare index bits of the packed representation. -/
def OpResultImpl.getMaxInlineResults : Nat := 5

/-- The inline result array as laid out by `Operation::create`: the
result at operation index `k + j` is the inline storage carrying type
`ts[j]` and packed index `k + j`. -/
def tagInlineResults (k : Nat) : List BuiltinType → List OpResultImpl
  | [] => []
  | t :: ts => .inlineOpResult t k :: tagInlineResults (k + 1) ts

/-- The out-of-line result array: the `j`-th trailing result carries its
explicit out-of-line index `k + j`. -/
def tagOutOfLineResults (k : Nat) : List BuiltinType → List OpResultImpl
  | [] => []
  | t :: ts => .outOfLineOpResult t k :: tagOutOfLineResults (k + 1) ts

/-- The `mlir::Operation` header fields this development models
(Operation.h lines 1354-1380): the result/successor counts are full
`unsigned` fields while the region count is the 23-bit bit-field
`numRegions : 23`; the result storages are the prefix-allocated inline
and out-of-line arrays. -/
structure Operation where
  numResults : Nat
  numSuccs : Nat
  numRegions : Nat
  inlineResults : List OpResultImpl
  outOfLineResults : List OpResultImpl
deriving DecidableEq, Repr

/-- Modelled from the spec: `Operation::create` (declared at Operation.h
lines 144-148) is implemented in lib/IR/Operation.cpp, outside this
excerpt.  Per the spec it allocates one block whose layout is computed
from the caller-supplied counts, with the first `getMaxInlineResults`
results stored inline before the header and the remainder out-of-line;
the counts land in the header fields of Operation.h lines 1365-1367,
where the region count is narrowed to the 23-bit bit-field.  Operand
storage, properties, attributes and location are outside this model. -/
def Operation.create (resultTypes : List BuiltinType)
    (numSuccessors numRegions : Nat) : Operation :=
  { numResults := resultTypes.length
    numSuccs := numSuccessors
    numRegions := numRegions % 2 ^ 23
    inlineResults :=
      tagInlineResults 0 (resultTypes.take OpResultImpl.getMaxInlineResults)
    outOfLineResults :=
      tagOutOfLineResults 0 (resultTypes.drop OpResultImpl.getMaxInlineResults) }

/-- `Operation::getNumResults` (Operation.h line 590). -/
def Operation.getNumResults (op : Operation) : Nat := op.numResults

/-- `Operation::getNumSuccessors` (Operation.h line 982). -/
def Operation.getNumSuccessors (op : Operation) : Nat := op.numSuccs

/-- `Operation::getNumRegions` (Operation.h line 929). -/
def Operation.getNumRegions (op : Operation) : Nat := op.numRegions

/-- `Operation::getInlineOpResult` (Operation.h lines 1317-1321):
addresses the `resultNumber`-th inline storage before the header. -/
def Operation.getInlineOpResult (op : Operation) (resultNumber : Nat) :
    Option OpResultImpl :=
  op.inlineResults[resultNumber]?

/-- `Operation::getOutOfLineOpResult` (Operation.h lines 1308-1314):
addresses the `resultNumber`-th out-of-line storage. -/
def Operation.getOutOfLineOpResult (op : Operation) (resultNumber : Nat) :
    Option OpResultImpl :=
  op.outOfLineResults[resultNumber]?

/-- `Operation::getOpResultImpl` (Operation.h lines 1325-1332): the
inline path for `resultNumber < getMaxInlineResults`, the out-of-line
path (shifted by the inline capacity) otherwise. -/
def Operation.getOpResultImpl (op : Operation) (resultNumber : Nat) :
    Option OpResultImpl :=
  if resultNumber < OpResultImpl.getMaxInlineResults then
    op.getInlineOpResult resultNumber
  else
    op.getOutOfLineOpResult (resultNumber - OpResultImpl.getMaxInlineResults)

/-- `Operation::getResult` (Operation.h line 595): wraps the storage
found by `getOpResultImpl`. -/
def Operation.getResult (op : Operation) (idx : Nat) : Option OpResultImpl :=
  op.getOpResultImpl idx

/-- Lexicographic strict comparison of character lists, the semantics
of `llvm::StringRef::operator<` (a `compare`/`memcmp` over the bytes,
with the shorter string ordered first on a common prefix); code points
and UTF-8 bytes order identically. -/
def charListLt : List Char → List Char → Bool
  | _, [] => false
  | [], _ :: _ => true
  | a :: as, b :: bs =>
      if a.toNat < b.toNat then true
      else if b.toNat < a.toNat then false
      else charListLt as bs

/-- `StringRef::operator<` on the two namespace strings. -/
def stringLt (a b : String) : Bool :=
  charListLt a.data b.data

/-- The comparator passed to `llvm::array_pod_sort` by
`MLIRContext::getLoadedDialects` (MLIRContext.cpp lines 490-493): the
boolean `(*lhs)->getNamespace() < (*rhs)->getNamespace()` converted to
the `int` return type, i.e. 1 when the left namespace is ordered before
the right one and 0 otherwise. -/
def cmpDialect (lhs rhs : Dialect) : Int :=
  if stringLt lhs.dialectNamespace rhs.dialectNamespace then 1 else 0

/-- Element `a` may precede element `b` in a qsort-sorted array exactly
when the comparator does not order `a` after `b`, i.e.
`cmpDialect a b ≤ 0`. -/
def dialectOrderR (a b : Dialect) : Prop := cmpDialect a b ≤ 0

instance : DecidableRel dialectOrderR := fun a b =>
  inferInstanceAs (Decidable (cmpDialect a b ≤ 0))

/-- `MLIRContext::getLoadedDialects` (MLIRContext.cpp lines 480-495):
collect the `unique_ptr::get()` of every `loadedDialects` entry, then
`array_pod_sort` with `cmpDialect`.  A qsort-consistent output — every
element relates to its successors by `cmpDialect ≤ 0` — is realized by
insertion sort over `dialectOrderR`.  Null placeholder entries of
dialects still loading are skipped here; the source would push raw null
pointers for them, so the claims about this function presuppose no load
is in flight. -/
def MLIRContext.getLoadedDialects (impl : MLIRContextImpl) : List Dialect :=
  List.insertionSort dialectOrderR (impl.loadedDialects.filterMap (·.2))

/-- Whether a dialect list is sorted in strictly ascending namespace
order. -/
def ascendingByNamespace : List Dialect → Bool
  | [] => true
  | [_] => true
  | a :: b :: rest =>
      stringLt a.dialectNamespace b.dialectNamespace &&
      ascendingByNamespace (b :: rest)

/-- Concrete contexts and inputs used by the witness theorems. -/
def c1Dialect : Dialect := ⟨0, "test", ⟨5⟩⟩

def c1Impl : MLIRContextImpl :=
  { loadedDialects := [("test", some c1Dialect)] }

def c2Base : MLIRContextImpl := {}

def c2Descriptor : DialectDescriptor := ⟨"test", ⟨5⟩⟩

def c3Loading : MLIRContextImpl :=
  { loadedDialects := [("test", none)] }

def c5Types : List BuiltinType :=
  [.index, .index, .index, .index, .index, .noneTy]

def c10DialectA : Dialect := ⟨0, "apple", ⟨1⟩⟩

def c10DialectB : Dialect := ⟨1, "banana", ⟨2⟩⟩

def c10Impl : MLIRContextImpl :=
  { loadedDialects :=
      [("apple", some c10DialectA), ("banana", some c10DialectB)] }

/-! Helper lemmas about the association-list operations and the
extension bookkeeping. -/

theorem alistFind_insert_self {κ α : Type} [DecidableEq κ]
    (m : List (κ × α)) (k : κ) (v : α) :
    alistFind (alistInsert m k v) k = some v := by
  induction m with
  | nil => simp [alistInsert, alistFind]
  | cons p rest ih =>
    obtain ⟨k', v'⟩ := p
    by_cases h : k' = k
    · simp [alistInsert, alistFind, h]
    · simp [alistInsert, alistFind, h, ih]

theorem alistFind_insert_ne {κ α : Type} [DecidableEq κ]
    (m : List (κ × α)) {k k' : κ} (v : α) (h : k' ≠ k) :
    alistFind (alistInsert m k v) k' = alistFind m k' := by
  have h' : k ≠ k' := Ne.symm h
  induction m with
  | nil => simp [alistInsert, alistFind, h']
  | cons p rest ih =>
    obtain ⟨k₀, v₀⟩ := p
    by_cases h₀ : k₀ = k
    · subst h₀
      simp [alistInsert, alistFind, h']
    · by_cases h₁ : k₀ = k'
      · simp [alistInsert, alistFind, h₀, h₁, h]
      · simp [alistInsert, alistFind, h₀, h₁, ih]

theorem alistFind_mem {κ α : Type} [DecidableEq κ]
    {m : List (κ × α)} {k : κ} {v : α} (h : alistFind m k = some v) :
    (k, v) ∈ m := by
  induction m with
  | nil => simp [alistFind] at h
  | cons p rest ih =>
    obtain ⟨k₀, v₀⟩ := p
    by_cases h₀ : k₀ = k
    · subst h₀
      simp [alistFind] at h
      simp [h]
    · simp [alistFind, h₀] at h
      exact List.mem_cons_of_mem _ (ih h)

theorem alistContains_of_mem {κ α : Type} [DecidableEq κ]
    {m : List (κ × α)} {p : κ × α} (h : p ∈ m) :
    alistContains m p.1 = true := by
  induction m with
  | nil => simp at h
  | cons q rest ih =>
    obtain ⟨k₀, v₀⟩ := q
    rcases List.mem_cons.mp h with h | h
    · subst h
      simp [alistContains, alistFind]
    · by_cases h₀ : k₀ = p.1
      · simp [alistContains, alistFind, h₀]
      · have := ih h
        simpa [alistContains, alistFind, h₀] using this

theorem alistFind_eq_none_of_not_contains {κ α : Type} [DecidableEq κ]
    {m : List (κ × α)} {k : κ} (h : alistContains m k = false) :
    alistFind m k = none := by
  unfold alistContains at h
  cases hf : alistFind m k with
  | none => rfl
  | some v => rw [hf] at h; simp at h

theorem applyExtensionsToDialect_loadedDialects
    (impl : MLIRContextImpl) (d : Dialect) :
    (applyExtensionsToDialect impl d).loadedDialects = impl.loadedDialects :=
  rfl

theorem applyExtensionsToDialect_multiThreaded
    (impl : MLIRContextImpl) (d : Dialect) :
    (applyExtensionsToDialect impl d).multiThreadedExecutionContext =
      impl.multiThreadedExecutionContext :=
  rfl

/-- C1: for a namespace that already holds a loaded dialect,
`MLIRContext::getOrLoadDialect(namespace, typeID, ctor)` with a TypeID
different from the loaded dialect's TypeID fatal-errors (the
`report_fatal_error` of MLIRContext.cpp lines 606-608) instead of
returning the existing dialect, and with the matching TypeID it returns
the existing dialect with the context unchanged — for every constructor
callback, so the ctor is never run. -/
theorem getOrLoadDialect_existing_namespace (impl : MLIRContextImpl)
    (ns : String) (d : Dialect) (id : TypeID)
    (ctor : MLIRContextImpl → Except FatalError (Dialect × MLIRContextImpl))
    (h : alistFind impl.loadedDialects ns = some (some d)) :
    (d.typeID ≠ id →
      MLIRContext.getOrLoadDialect impl ns id ctor =
        .error (.dialectNamespaceAlreadyRegistered ns)) ∧
    (d.typeID = id →
      MLIRContext.getOrLoadDialect impl ns id ctor = .ok (d, impl)) := by
  constructor
  · intro hne
    simp [MLIRContext.getOrLoadDialect, h, hne]
  · intro heq
    simp [MLIRContext.getOrLoadDialect, h, heq]

/-- Witness for C1 at a concrete context: namespace "test" is loaded
with TypeID 5; loading with TypeID 6 aborts, loading with TypeID 5
returns the existing dialect unchanged. -/
theorem getOrLoadDialect_existing_namespace_witness :
    alistFind c1Impl.loadedDialects "test" = some (some c1Dialect) ∧
    MLIRContext.getOrLoadDialect c1Impl "test" ⟨6⟩
        (mkDialectCtor ⟨"test", ⟨6⟩⟩) =
      .error (.dialectNamespaceAlreadyRegistered "test") ∧
    MLIRContext.getOrLoadDialect c1Impl "test" ⟨5⟩
        (mkDialectCtor ⟨"test", ⟨5⟩⟩) = .ok (c1Dialect, c1Impl) :=
  ⟨rfl,
   (getOrLoadDialect_existing_namespace c1Impl "test" c1Dialect ⟨6⟩
      (mkDialectCtor ⟨"test", ⟨6⟩⟩) rfl).1 (by decide),
   (getOrLoadDialect_existing_namespace c1Impl "test" c1Dialect ⟨5⟩
      (mkDialectCtor ⟨"test", ⟨5⟩⟩) rfl).2 (by decide)⟩

/-- C2: a successful `getOrLoadDialect<D>()` is idempotent — a repeated
call returns the very same dialect instance and leaves the context
state completely unchanged (so the constructor of `D` does not run
again and no second instance is allocated), and the context owns
exactly that instance under `D`'s namespace. -/
theorem getOrLoadDialectT_load_once (impl : MLIRContextImpl)
    (d : DialectDescriptor) (dlt : Dialect) (impl' : MLIRContextImpl)
    (h : MLIRContext.getOrLoadDialectT impl d = .ok (dlt, impl')) :
    MLIRContext.getOrLoadDialectT impl' d = .ok (dlt, impl') ∧
    alistFind impl'.loadedDialects d.name = some (some dlt) ∧
    dlt.typeID = d.id := by
  have key : ∀ (implX : MLIRContextImpl) (A : Dialect),
      A.typeID = d.id →
      alistFind implX.loadedDialects d.name = some (some A) →
      MLIRContext.getOrLoadDialect implX d.name d.id (mkDialectCtor d) =
        .ok (A, implX) := by
    intro implX A hA hfindX
    rw [MLIRContext.getOrLoadDialect, hfindX]
    simp [hA]
  have hfind_fin : ∀ (implX : MLIRContextImpl) (A : Dialect),
      alistFind (finishDialectLoad implX d.name A).loadedDialects d.name =
        some (some A) := by
    intro implX A
    rw [finishDialectLoad, applyExtensionsToDialect_loadedDialects]
    exact alistFind_insert_self _ _ _
  unfold MLIRContext.getOrLoadDialectT at h ⊢
  cases hfind : alistFind impl.loadedDialects d.name with
  | none =>
    rw [MLIRContext.getOrLoadDialect] at h
    rw [hfind] at h
    by_cases hmt : impl.multiThreadedExecutionContext ≠ 0
    · rw [if_pos hmt] at h
      exact Except.noConfusion h
    · rw [if_neg hmt] at h
      simp only [mkDialectCtor] at h
      simp at h
      obtain ⟨hdlt, himpl'⟩ := h
      subst hdlt
      subst himpl'
      exact ⟨key _ _ rfl (hfind_fin _ _), hfind_fin _ _, rfl⟩
  | some od =>
    cases od with
    | none =>
      rw [MLIRContext.getOrLoadDialect, hfind] at h
      exact Except.noConfusion h
    | some d₀ =>
      rw [MLIRContext.getOrLoadDialect, hfind] at h
      have h' : (if d₀.typeID ≠ d.id
            then (Except.error (FatalError.dialectNamespaceAlreadyRegistered
                    d.name) :
                  Except FatalError (Dialect × MLIRContextImpl))
            else Except.ok (d₀, impl)) = Except.ok (dlt, impl') := h
      by_cases hid : d₀.typeID ≠ d.id
      · rw [if_pos hid] at h'
        exact Except.noConfusion h'
      · push_neg at hid
        rw [if_neg (show ¬ (d₀.typeID ≠ d.id) by simp [hid])] at h'
        simp at h'
        obtain ⟨hdlt, himpl'⟩ := h'
        subst hdlt
        subst himpl'
        exact ⟨key _ _ hid hfind, hfind, hid⟩

/-- Witness for C2: loading "test" into a fresh context constructs one
instance; the repeated call returns the identical instance and state. -/
theorem getOrLoadDialectT_load_once_witness :
    MLIRContext.getOrLoadDialectT c2Base c2Descriptor =
      .ok (⟨0, "test", ⟨5⟩⟩,
           { loadedDialects := [("test", some ⟨0, "test", ⟨5⟩⟩)]
             nextDialectId := 1 }) ∧
    MLIRContext.getOrLoadDialectT
        { loadedDialects := [("test", some ⟨0, "test", ⟨5⟩⟩)]
          nextDialectId := 1 } c2Descriptor =
      .ok (⟨0, "test", ⟨5⟩⟩,
           { loadedDialects := [("test", some ⟨0, "test", ⟨5⟩⟩)]
             nextDialectId := 1 }) :=
  ⟨rfl,
   (getOrLoadDialectT_load_once c2Base c2Descriptor ⟨0, "test", ⟨5⟩⟩
      { loadedDialects := [("test", some ⟨0, "test", ⟨5⟩⟩)]
        nextDialectId := 1 } rfl).1⟩

/-- C3: the loading-state invariant.  First, `isDialectLoading` is true
exactly when the namespace entry is the null placeholder.  Second, on a
fresh load the constructor callback observes precisely the context with
the null placeholder installed (for which `isDialectLoading` holds), and
the load finishes from the ctor's result.  Third, `loadDialect<D>()`
invoked while `D`'s namespace is in the loading state returns with the
context unchanged, without re-entering `getOrLoadDialect`. -/
theorem dialect_loading_placeholder :
    (∀ (impl : MLIRContextImpl) (ns : String),
       MLIRContext.isDialectLoading impl ns = true ↔
         alistFind impl.loadedDialects ns = some none) ∧
    (∀ (impl : MLIRContextImpl) (ns : String) (id : TypeID)
       (ctor : MLIRContextImpl → Except FatalError (Dialect × MLIRContextImpl)),
       alistFind impl.loadedDialects ns = none →
       impl.multiThreadedExecutionContext = 0 →
       MLIRContext.isDialectLoading (installLoadingPlaceholder impl ns) ns
           = true ∧
       MLIRContext.getOrLoadDialect impl ns id ctor =
         (match ctor (installLoadingPlaceholder impl ns) with
          | .error e => .error e
          | .ok (dialect, impl2) =>
              .ok (dialect, finishDialectLoad impl2 ns dialect))) ∧
    (∀ (impl : MLIRContextImpl) (d : DialectDescriptor),
       MLIRContext.isDialectLoading impl d.name = true →
       MLIRContext.loadDialect impl d = .ok impl) := by
  refine ⟨?_, ?_, ?_⟩
  · intro impl ns
    unfold MLIRContext.isDialectLoading
    cases hfind : alistFind impl.loadedDialects ns with
    | none => simp
    | some od => cases od <;> simp
  · intro impl ns id ctor hfind hmt
    constructor
    · unfold MLIRContext.isDialectLoading installLoadingPlaceholder
      simp [alistFind_insert_self]
    · rw [MLIRContext.getOrLoadDialect, hfind]
      simp [hmt]
  · intro impl d hload
    unfold MLIRContext.loadDialect
    rw [if_pos hload]

/-- Witness for C3 at a concrete context whose "test" entry is the null
placeholder: `isDialectLoading` reports it and `loadDialect` returns
without re-entering. -/
theorem dialect_loading_placeholder_witness :
    MLIRContext.isDialectLoading c3Loading "test" = true ∧
    MLIRContext.loadDialect c3Loading ⟨"test", ⟨5⟩⟩ = .ok c3Loading :=
  ⟨by decide,
   dialect_loading_placeholder.2.2 c3Loading ⟨"test", ⟨5⟩⟩ (by decide)⟩

/-- The construction events of the singleton caches named by the
specification: the float types, the index type, the signless integer
ladder, the none type, and the cached attributes. -/
def cachedSingletonEvents : List InitEvent :=
  [ .typeEvent (.float .f4E2M1FN), .typeEvent (.float .f6E2M3FN),
    .typeEvent (.float .f6E3M2FN), .typeEvent (.float .f8E5M2),
    .typeEvent (.float .f8E4M3), .typeEvent (.float .f8E4M3FN),
    .typeEvent (.float .f8E5M2FNUZ), .typeEvent (.float .f8E4M3FNUZ),
    .typeEvent (.float .f8E4M3B11FNUZ), .typeEvent (.float .f8E3M4),
    .typeEvent (.float .f8E8M0FNU), .typeEvent (.float .bf16),
    .typeEvent (.float .f16), .typeEvent (.float .tf32),
    .typeEvent (.float .f32), .typeEvent (.float .f64),
    .typeEvent (.float .f80), .typeEvent (.float .f128),
    .typeEvent .index,
    .typeEvent (.integer 1 .Signless), .typeEvent (.integer 8 .Signless),
    .typeEvent (.integer 16 .Signless), .typeEvent (.integer 32 .Signless),
    .typeEvent (.integer 64 .Signless), .typeEvent (.integer 128 .Signless),
    .typeEvent .noneTy,
    .attrEvent .unknownLoc,
    .attrEvent (.boolAttr (.integer 1 .Signless) false),
    .attrEvent (.boolAttr (.integer 1 .Signless) true),
    .attrEvent .unit, .attrEvent .emptyDictionary,
    .attrEvent .emptyString ]

/-- C4: in the context constructor every singleton cache is constructed
exactly once, with every cached type constructed before any cached
attribute; afterwards the public accessors return the cached instance —
`IntegerType::get` answers from the cache with the context state
untouched whenever the cache holds the requested type, and it consults
the cache only for `Signless` signedness; `IndexType::get`,
`BoolAttr::get`, `UnitAttr::get`, `DictionaryAttr::getEmpty` and the
empty `StringAttr::get` are plain reads of the cached fields. -/
theorem singleton_cache_construction :
    typesPrecedeAttrs defaultContext.initLog = true ∧
    cachedSingletonEvents.all
      (fun e => (defaultContext.initLog.filter (fun x => x = e)).length = 1)
      = true ∧
    (∀ (impl : MLIRContextImpl) (w : Nat) (s : SignednessSemantics)
       (t : BuiltinType),
       getCachedIntegerType w s impl = some t →
       IntegerType.get impl w s = (t, impl)) ∧
    (∀ (impl : MLIRContextImpl) (w : Nat) (s : SignednessSemantics),
       s ≠ .Signless → getCachedIntegerType w s impl = none) ∧
    (∀ impl : MLIRContextImpl,
       IndexType.get impl = impl.indexTy ∧
       BoolAttr.get impl true = impl.trueAttr ∧
       BoolAttr.get impl false = impl.falseAttr ∧
       UnitAttr.get impl = impl.unitAttr ∧
       DictionaryAttr.getEmpty impl = impl.emptyDictionaryAttr ∧
       StringAttr.getEmpty impl = impl.emptyStringAttr) ∧
    IntegerType.get defaultContext 32 .Signless =
      (.integer 32 .Signless, defaultContext) := by
  refine ⟨rfl, rfl, ?_, ?_, ?_, rfl⟩
  · intro impl w s t h
    unfold IntegerType.get
    rw [h]
  · intro impl w s hs
    unfold getCachedIntegerType
    rw [if_pos hs]
  · intro impl
    exact ⟨rfl, rfl, rfl, rfl, rfl, rfl⟩

/-- Witness for C4: on the freshly constructed context the 64-bit
signless cache answers `IntegerType::get` without construction, and a
signed request never consults the cache. -/
theorem singleton_cache_construction_witness :
    getCachedIntegerType 64 SignednessSemantics.Signless defaultContext =
      some (.integer 64 .Signless) ∧
    IntegerType.get defaultContext 64 SignednessSemantics.Signless =
      (.integer 64 .Signless, defaultContext) ∧
    getCachedIntegerType 32 SignednessSemantics.Signed defaultContext =
      none :=
  ⟨rfl,
   singleton_cache_construction.2.2.1 defaultContext 64 .Signless
     (.integer 64 .Signless) rfl,
   singleton_cache_construction.2.2.2.1 defaultContext 32 .Signed
     (by decide)⟩

/-- C6: `TypeID::get<T>` is stable — once resolved for a name, a
repeated resolution returns the same TypeID and the same registry
state; distinct type names resolve (over a well-formed registry) to
distinct TypeIDs; and TypeID equality coincides with equality of the
underlying storage pointers (the `operator==` of TypeID.h). -/
theorem typeID_get_stable_and_distinct :
    (∀ (reg : TypeIDRegistry) (name : String) (id : TypeID)
       (reg1 : TypeIDRegistry),
       TypeID.get reg name = (id, reg1) →
       TypeID.get reg1 name = (id, reg1)) ∧
    (∀ (reg : TypeIDRegistry) (nameA nameB : String) (idA : TypeID)
       (regA : TypeIDRegistry) (idB : TypeID) (regB : TypeIDRegistry),
       reg.Wf → nameA ≠ nameB →
       TypeID.get reg nameA = (idA, regA) →
       TypeID.get regA nameB = (idB, regB) →
       idA ≠ idB) ∧
    (∀ a b : TypeID, TypeID.beqStorage a b = true ↔ a = b) ∧
    (∀ a b : TypeID, a = b ↔ a.storage = b.storage) := by
  refine ⟨?_, ?_, ?_, ?_⟩
  · intro reg name id reg1 h
    unfold TypeID.get registerImplicitTypeID at h ⊢
    cases hf : alistFind reg.table name with
    | some addr =>
      rw [hf] at h
      simp at h
      obtain ⟨hid, hreg⟩ := h
      subst hid
      subst hreg
      rw [hf]
    | none =>
      rw [hf] at h
      simp at h
      obtain ⟨hid, hreg⟩ := h
      subst hid
      subst hreg
      rw [show (({ table := alistInsert reg.table name reg.nextAddr,
                   nextAddr := reg.nextAddr + 1 } : TypeIDRegistry)).table =
            alistInsert reg.table name reg.nextAddr from rfl,
          alistFind_insert_self]
  · intro reg nameA nameB idA regA idB regB hwf hne h1 h2
    unfold TypeID.get registerImplicitTypeID at h1 h2
    cases hfA : alistFind reg.table nameA with
    | some a =>
      rw [hfA] at h1
      simp at h1
      obtain ⟨hidA, hregA⟩ := h1
      subst hidA
      subst hregA
      cases hfB : alistFind reg.table nameB with
      | some b =>
        rw [hfB] at h2
        simp at h2
        obtain ⟨hidB, _⟩ := h2
        subst hidB
        have hma := alistFind_mem hfA
        have hmb := alistFind_mem hfB
        have hab : a ≠ b := by
          have hdiff : (nameA, a) ≠ (nameB, b) := by
            intro hcontra
            exact hne (congrArg Prod.fst hcontra)
          exact List.Pairwise.forall (fun {x y} hxy => Ne.symm hxy)
            hwf.2 hma hmb hdiff
        intro hcontra
        exact hab (congrArg TypeID.storage hcontra)
      | none =>
        rw [hfB] at h2
        simp at h2
        obtain ⟨hidB, _⟩ := h2
        subst hidB
        have ha_lt : a < reg.nextAddr := hwf.1 _ (alistFind_mem hfA)
        intro hcontra
        have hstor : a = reg.nextAddr := congrArg TypeID.storage hcontra
        omega
    | none =>
      rw [hfA] at h1
      simp at h1
      obtain ⟨hidA, hregA⟩ := h1
      subst hidA
      subst hregA
      have hfB' : alistFind
          (({ table := alistInsert reg.table nameA reg.nextAddr,
              nextAddr := reg.nextAddr + 1 } : TypeIDRegistry)).table nameB =
          alistFind reg.table nameB :=
        alistFind_insert_ne _ _ (Ne.symm hne)
      cases hfB : alistFind reg.table nameB with
      | some b =>
        rw [hfB' , hfB] at h2
        simp at h2
        obtain ⟨hidB, _⟩ := h2
        subst hidB
        have hb_lt : b < reg.nextAddr := hwf.1 _ (alistFind_mem hfB)
        intro hcontra
        have hstor : reg.nextAddr = b := congrArg TypeID.storage hcontra
        omega
      | none =>
        rw [hfB' , hfB] at h2
        simp at h2
        obtain ⟨hidB, _⟩ := h2
        subst hidB
        intro hcontra
        have hstor : reg.nextAddr =
            (({ table := alistInsert reg.table nameA reg.nextAddr,
                nextAddr := reg.nextAddr + 1 } : TypeIDRegistry)).nextAddr :=
          congrArg TypeID.storage hcontra
        simp at hstor
  · intro a b
    cases a with
    | mk sa =>
      cases b with
      | mk sb => simp [TypeID.beqStorage]
  · intro a b
    cases a with
    | mk sa =>
      cases b with
      | mk sb => simp

/-- Witness for C6: resolving "A" then "B" from the empty well-formed
registry yields storage addresses 0 and 1, which are distinct. -/
theorem typeID_get_stable_and_distinct_witness :
    TypeIDRegistry.empty.Wf ∧
    TypeID.get TypeIDRegistry.empty "A" = (⟨0⟩, ⟨[("A", 0)], 1⟩) ∧
    TypeID.get ⟨[("A", 0)], 1⟩ "B" = (⟨1⟩, ⟨[("A", 0), ("B", 1)], 2⟩) ∧
    (⟨0⟩ : TypeID) ≠ (⟨1⟩ : TypeID) :=
  ⟨⟨fun p hp => absurd hp (List.not_mem_nil p), List.Pairwise.nil⟩,
   rfl, rfl,
   typeID_get_stable_and_distinct.2.1 TypeIDRegistry.empty "A" "B"
     ⟨0⟩ ⟨[("A", 0)], 1⟩ ⟨1⟩ ⟨[("A", 0), ("B", 1)], 2⟩
     ⟨fun p hp => absurd hp (List.not_mem_nil p), List.Pairwise.nil⟩
     (by decide) rfl rfl⟩

/-! Helper lemmas for the registry-merge claims. -/

theorem insertD_extensions (reg : DialectRegistry) (tid : TypeID)
    (k : String) : (reg.insertD tid k).extensions = reg.extensions := by
  unfold DialectRegistry.insertD
  split <;> rfl

theorem insertD_contains_self (reg : DialectRegistry) (tid : TypeID)
    (k : String) : alistContains (reg.insertD tid k).registry k = true := by
  unfold DialectRegistry.insertD
  split
  · assumption
  · simp [alistContains, alistFind_insert_self]

theorem insertD_contains_mono (reg : DialectRegistry) (tid : TypeID)
    (k k' : String) (h : alistContains reg.registry k' = true) :
    alistContains (reg.insertD tid k).registry k' = true := by
  unfold DialectRegistry.insertD
  split
  · exact h
  · by_cases hk : k' = k
    · subst hk
      simp [alistContains, alistFind_insert_self]
    · unfold alistContains at h ⊢
      rw [show ({ reg with
            registry := alistInsert reg.registry k tid } : DialectRegistry).registry =
          alistInsert reg.registry k tid from rfl]
      rw [alistFind_insert_ne _ _ hk]
      exact h

theorem foldl_insertD_contains_mono (entries : List (String × TypeID)) :
    ∀ (dest : DialectRegistry) (k : String),
    alistContains dest.registry k = true →
    alistContains
      ((entries.foldl (fun d p => d.insertD p.2 p.1) dest)).registry k
      = true := by
  induction entries with
  | nil => intro dest k h; exact h
  | cons e rest ih =>
    intro dest k h
    exact ih _ _ (insertD_contains_mono _ _ _ _ h)

theorem foldl_insertD_contains_of_mem (entries : List (String × TypeID)) :
    ∀ (dest : DialectRegistry) (p : String × TypeID), p ∈ entries →
    alistContains
      ((entries.foldl (fun d p => d.insertD p.2 p.1) dest)).registry p.1
      = true := by
  induction entries with
  | nil => intro dest p hp; simp at hp
  | cons e rest ih =>
    intro dest p hp
    rcases List.mem_cons.mp hp with h | h
    · subst h
      exact foldl_insertD_contains_mono rest _ _
        (insertD_contains_self dest p.2 p.1)
    · exact ih _ _ h

theorem alistContains_append_singleton {κ α : Type} [DecidableEq κ]
    (l : List (κ × α)) (k : κ) (v : α) :
    alistContains (l ++ [(k, v)]) k = true := by
  induction l with
  | nil => simp [alistContains, alistFind]
  | cons p rest ih =>
    obtain ⟨k₀, v₀⟩ := p
    by_cases h : k₀ = k
    · simp [alistContains, alistFind, h]
    · simpa [alistContains, alistFind, h] using ih

theorem alistContains_append_left {κ α : Type} [DecidableEq κ]
    (l l₂ : List (κ × α)) (k : κ) (h : alistContains l k = true) :
    alistContains (l ++ l₂) k = true := by
  induction l with
  | nil => simp [alistContains, alistFind] at h
  | cons p rest ih =>
    obtain ⟨k₀, v₀⟩ := p
    by_cases hk : k₀ = k
    · simp [alistContains, alistFind, hk]
    · simp [alistContains, alistFind, hk] at h ⊢
      exact ih h

theorem extTryEmplace_contains_self
    (exts : List (TypeID × DialectExtensionRec)) (k : TypeID)
    (v : DialectExtensionRec) :
    alistContains (extTryEmplace exts k v) k = true := by
  unfold extTryEmplace
  split
  · assumption
  · exact alistContains_append_singleton _ _ _

theorem extTryEmplace_contains_mono
    (exts : List (TypeID × DialectExtensionRec)) (k k' : TypeID)
    (v : DialectExtensionRec) (h : alistContains exts k' = true) :
    alistContains (extTryEmplace exts k v) k' = true := by
  unfold extTryEmplace
  split
  · exact h
  · exact alistContains_append_left _ _ _ h

theorem foldl_extTryEmplace_contains_mono
    (entries : List (TypeID × DialectExtensionRec)) :
    ∀ (base : List (TypeID × DialectExtensionRec)) (k : TypeID),
    alistContains base k = true →
    alistContains
      (entries.foldl (fun exts p => extTryEmplace exts p.1 p.2) base) k
      = true := by
  induction entries with
  | nil => intro base k h; exact h
  | cons e rest ih =>
    intro base k h
    exact ih _ _ (extTryEmplace_contains_mono _ _ _ _ h)

theorem foldl_extTryEmplace_contains_of_mem
    (entries : List (TypeID × DialectExtensionRec)) :
    ∀ (base : List (TypeID × DialectExtensionRec))
      (p : TypeID × DialectExtensionRec), p ∈ entries →
    alistContains
      (entries.foldl (fun exts q => extTryEmplace exts q.1 q.2) base) p.1
      = true := by
  induction entries with
  | nil => intro base p hp; simp at hp
  | cons e rest ih =>
    intro base p hp
    rcases List.mem_cons.mp hp with h | h
    · subst h
      exact foldl_extTryEmplace_contains_mono rest _ _
        (extTryEmplace_contains_self base p.1 p.2)
    · exact ih _ _ h

/-- C7: the registry subset law — every registry is a subset of itself;
after `A.appendTo(B)` the registry `A` is a subset of the result; and
`MLIRContext::appendDialectRegistry` with an already-subset registry
leaves the context (its registry and its record of applied extensions)
completely unchanged. -/
theorem registry_subset_law :
    (∀ R : DialectRegistry, R.isSubsetOf R = true) ∧
    (∀ A B : DialectRegistry, A.isSubsetOf (A.appendTo B) = true) ∧
    (∀ (impl : MLIRContextImpl) (reg : DialectRegistry),
       reg.isSubsetOf impl.dialectsRegistry = true →
       MLIRContext.appendDialectRegistry impl reg = impl) := by
  refine ⟨?_, ?_, ?_⟩
  · intro R
    simp only [DialectRegistry.isSubsetOf, Bool.and_eq_true, List.all_eq_true]
    exact ⟨fun p hp => alistContains_of_mem hp,
           fun p hp => alistContains_of_mem hp⟩
  · intro A B
    simp only [DialectRegistry.isSubsetOf, DialectRegistry.appendTo,
               Bool.and_eq_true, List.all_eq_true]
    constructor
    · intro p hp
      exact foldl_insertD_contains_of_mem A.registry B p hp
    · intro p hp
      exact foldl_extTryEmplace_contains_of_mem A.extensions _ p hp
  · intro impl reg h
    unfold MLIRContext.appendDialectRegistry
    rw [if_pos h]

/-- Witness for C7: appending the already-subset empty registry to a
fresh context changes nothing. -/
theorem registry_subset_law_witness :
    DialectRegistry.emptyR.isSubsetOf
      (({} : MLIRContextImpl)).dialectsRegistry = true ∧
    MLIRContext.appendDialectRegistry {} DialectRegistry.emptyR =
      ({} : MLIRContextImpl) :=
  ⟨rfl, registry_subset_law.2.2 {} DialectRegistry.emptyR rfl⟩

/-- C8: the threading toggles.  The global `--mlir-disable-threading`
flag makes `disableMultithreading` a no-op; disabling destroys an
internally owned pool but never touches an externally provided one;
enabling creates a fresh internally owned pool only when no pool is
set; and `setThreadPool` (asserted legal only while multithreading is
disabled) installs the external pool without taking ownership. -/
theorem threading_toggles :
    (∀ (impl : MLIRContextImpl) (b : Bool),
       isThreadingGloballyDisabled impl = true →
       MLIRContext.disableMultithreading impl b = impl) ∧
    (∀ (impl : MLIRContextImpl) (p : Nat),
       isThreadingGloballyDisabled impl = false →
       impl.ownedThreadPool = some p →
       (MLIRContext.disableMultithreading impl true).threadPool = none ∧
       (MLIRContext.disableMultithreading impl true).ownedThreadPool
         = none) ∧
    (∀ impl : MLIRContextImpl,
       isThreadingGloballyDisabled impl = false →
       impl.ownedThreadPool = none →
       (MLIRContext.disableMultithreading impl true).threadPool =
         impl.threadPool ∧
       (MLIRContext.disableMultithreading impl true).ownedThreadPool
         = none) ∧
    (∀ impl : MLIRContextImpl,
       isThreadingGloballyDisabled impl = false →
       impl.threadPool = none →
       (MLIRContext.disableMultithreading impl false).threadPool =
         some impl.nextPoolId ∧
       (MLIRContext.disableMultithreading impl false).ownedThreadPool =
         some impl.nextPoolId) ∧
    (∀ (impl : MLIRContextImpl) (p : Nat),
       isThreadingGloballyDisabled impl = false →
       impl.threadPool = some p →
       (MLIRContext.disableMultithreading impl false).threadPool = some p ∧
       (MLIRContext.disableMultithreading impl false).ownedThreadPool =
         impl.ownedThreadPool) ∧
    (∀ (impl : MLIRContextImpl) (pool : Nat),
       MLIRContext.isMultithreadingEnabled impl = false →
       (MLIRContext.setThreadPool impl pool).threadPool = some pool ∧
       (MLIRContext.setThreadPool impl pool).ownedThreadPool = none) := by
  refine ⟨?_, ?_, ?_, ?_, ?_, ?_⟩
  · intro impl b h
    simp [MLIRContext.disableMultithreading, h]
  · intro impl p h hp
    simp [MLIRContext.disableMultithreading, h, hp]
  · intro impl h hp
    simp [MLIRContext.disableMultithreading, h, hp]
  · intro impl h hp
    simp [MLIRContext.disableMultithreading, h, hp]
  · intro impl p h hp
    simp [MLIRContext.disableMultithreading, h, hp]
  · intro impl pool _
    unfold MLIRContext.setThreadPool MLIRContext.enableMultithreading
    by_cases hg : impl.threadingGloballyDisabled = true
    · simp [MLIRContext.disableMultithreading, isThreadingGloballyDisabled, hg]
    · simp at hg
      simp [MLIRContext.disableMultithreading, isThreadingGloballyDisabled, hg]

/-- Witness for C8 at concrete contexts: disabling destroys an owned
pool, keeps an external pool, and `setThreadPool` installs pool 7
without ownership. -/
theorem threading_toggles_witness :
    (MLIRContext.disableMultithreading
       { threadPool := some 0, ownedThreadPool := some 0, nextPoolId := 1 }
       true).threadPool = none ∧
    (MLIRContext.disableMultithreading
       { threadPool := some 7, ownedThreadPool := none }
       true).threadPool = some 7 ∧
    (MLIRContext.setThreadPool
       { threadingIsEnabled := false } 7).threadPool = some 7 ∧
    (MLIRContext.setThreadPool
       { threadingIsEnabled := false } 7).ownedThreadPool = none :=
  ⟨(threading_toggles.2.1
      { threadPool := some 0, ownedThreadPool := some 0, nextPoolId := 1 }
      0 rfl rfl).1,
   (threading_toggles.2.2.1
      { threadPool := some 7, ownedThreadPool := none } rfl rfl).1,
   (threading_toggles.2.2.2.2.2
      { threadingIsEnabled := false } 7 rfl).1,
   (threading_toggles.2.2.2.2.2
      { threadingIsEnabled := false } 7 rfl).2⟩

/-- C9: looking up a namespace that is neither loaded nor present in the
registry returns the null sentinel with the context unchanged, and more
generally `getOrLoadDialect(name)` constructs nothing when the registry
holds no allocator for the namespace — it just returns whatever
`getLoadedDialect` finds. -/
theorem unknown_namespace_lookup :
    (∀ (impl : MLIRContextImpl) (name : String),
       alistContains impl.dialectsRegistry.registry name = false →
       MLIRContext.getOrLoadDialectByName impl name =
         .ok (MLIRContext.getLoadedDialect impl name, impl)) ∧
    (∀ (impl : MLIRContextImpl) (name : String),
       alistFind impl.loadedDialects name = none →
       alistContains impl.dialectsRegistry.registry name = false →
       MLIRContext.getOrLoadDialectByName impl name = .ok (none, impl)) := by
  have general : ∀ (impl : MLIRContextImpl) (name : String),
      alistContains impl.dialectsRegistry.registry name = false →
      MLIRContext.getOrLoadDialectByName impl name =
        .ok (MLIRContext.getLoadedDialect impl name, impl) := by
    intro impl name h
    unfold MLIRContext.getOrLoadDialectByName
    cases hl : MLIRContext.getLoadedDialect impl name with
    | some d => simp
    | none => simp [alistFind_eq_none_of_not_contains h]
  refine ⟨general, ?_⟩
  intro impl name hl hreg
  have hload : MLIRContext.getLoadedDialect impl name = none := by
    unfold MLIRContext.getLoadedDialect
    rw [hl]
  rw [general impl name hreg, hload]

/-- Witness for C9: the namespace "foo" is unknown to a fresh context,
and the lookup returns the null sentinel with the context unchanged. -/
theorem unknown_namespace_lookup_witness :
    alistFind (({} : MLIRContextImpl)).loadedDialects "foo" = none ∧
    alistContains (({} : MLIRContextImpl)).dialectsRegistry.registry "foo"
      = false ∧
    MLIRContext.getOrLoadDialectByName {} "foo" =
      .ok (none, ({} : MLIRContextImpl)) :=
  ⟨rfl, rfl, unknown_namespace_lookup.2 {} "foo" rfl rfl⟩

/-! Helper lemmas for the operation-layout claim. -/

theorem takeGetElemOpt {α : Type} :
    ∀ (l : List α) (m n : Nat), n < m → (l.take m)[n]? = l[n]?
  | [], m, n, _ => by simp
  | _ :: _, m + 1, 0, _ => by simp
  | a :: l, m + 1, n + 1, h => by
    simp only [List.take_succ_cons, List.getElem?_cons_succ]
    exact takeGetElemOpt l m n (Nat.lt_of_succ_lt_succ h)
  | _ :: _, 0, n, h => absurd h (Nat.not_lt_zero n)

theorem dropGetElemOpt {α : Type} :
    ∀ (l : List α) (m n : Nat), (l.drop m)[n]? = l[m + n]?
  | [], m, n => by simp
  | a :: l, 0, n => by simp
  | a :: l, m + 1, n => by
    simp only [List.drop_succ_cons]
    rw [dropGetElemOpt l m n]
    have harith : m + 1 + n = (m + n) + 1 := by omega
    rw [harith, List.getElem?_cons_succ]

theorem tagInline_getElem :
    ∀ (ts : List BuiltinType) (k n : Nat),
    (tagInlineResults k ts)[n]? =
      ts[n]?.map (fun t => OpResultImpl.inlineOpResult t (k + n))
  | [], k, n => by simp [tagInlineResults]
  | t :: ts, k, 0 => by simp [tagInlineResults]
  | t :: ts, k, n + 1 => by
    simp only [tagInlineResults, List.getElem?_cons_succ]
    rw [tagInline_getElem ts (k + 1) n]
    have harith : k + 1 + n = k + (n + 1) := by omega
    rw [harith]

theorem tagOutOfLine_getElem :
    ∀ (ts : List BuiltinType) (k n : Nat),
    (tagOutOfLineResults k ts)[n]? =
      ts[n]?.map (fun t => OpResultImpl.outOfLineOpResult t (k + n))
  | [], k, n => by simp [tagOutOfLineResults]
  | t :: ts, k, 0 => by simp [tagOutOfLineResults]
  | t :: ts, k, n + 1 => by
    simp only [tagOutOfLineResults, List.getElem?_cons_succ]
    rw [tagOutOfLine_getElem ts (k + 1) n]
    have harith : k + 1 + n = k + (n + 1) := by omega
    rw [harith]

/-- C5 counterexample: the claim asserts `getNumRegions() == G` for
every construction count `G`, but the region count is stored in the
23-bit bit-field `numRegions : 23` (Operation.h line 1367), so creating
an operation with `2 ^ 23` regions reports zero regions. -/
theorem operation_numRegions_truncation :
    (Operation.create [] 0 (2 ^ 23)).getNumRegions = 0 ∧
    (Operation.create [] 0 (2 ^ 23)).getNumRegions ≠ 2 ^ 23 := by
  constructor
  · decide
  · decide

/-- C5 (amended with `G < 2 ^ 23`, forced by the 23-bit region-count
bit-field): an operation created with result types `resultTypes`, `S`
successors and `G` regions reports exactly those counts for its
lifetime (the header fields are set once at creation); every result
index below the inline capacity resolves through the inline-result
path, every index at or above it through the out-of-line path shifted
by the capacity, and either path returns the result carrying the
correct type for that index. -/
theorem operation_layout (resultTypes : List BuiltinType)
    (numSuccessors numRegions : Nat) (hG : numRegions < 2 ^ 23) :
    (Operation.create resultTypes numSuccessors numRegions).getNumResults =
      resultTypes.length ∧
    (Operation.create resultTypes numSuccessors numRegions).getNumSuccessors
      = numSuccessors ∧
    (Operation.create resultTypes numSuccessors numRegions).getNumRegions =
      numRegions ∧
    (∀ i : Nat, i < resultTypes.length →
      (i < OpResultImpl.getMaxInlineResults →
        (Operation.create resultTypes numSuccessors
            numRegions).getOpResultImpl i =
          (Operation.create resultTypes numSuccessors
            numRegions).getInlineOpResult i) ∧
      (OpResultImpl.getMaxInlineResults ≤ i →
        (Operation.create resultTypes numSuccessors
            numRegions).getOpResultImpl i =
          (Operation.create resultTypes numSuccessors
            numRegions).getOutOfLineOpResult
              (i - OpResultImpl.getMaxInlineResults)) ∧
      ((Operation.create resultTypes numSuccessors
          numRegions).getOpResultImpl i).map OpResultImpl.resultType =
        resultTypes[i]?) := by
  refine ⟨rfl, rfl, ?_, ?_⟩
  · simp [Operation.create, Operation.getNumRegions]
    omega
  · intro i hi
    refine ⟨?_, ?_, ?_⟩
    · intro h5
      unfold Operation.getOpResultImpl
      rw [if_pos h5]
    · intro h5
      unfold Operation.getOpResultImpl
      rw [if_neg (Nat.not_lt.mpr h5)]
    · by_cases h5 : i < OpResultImpl.getMaxInlineResults
      · unfold Operation.getOpResultImpl Operation.getInlineOpResult
          Operation.create
        rw [if_pos h5]
        simp only
        rw [tagInline_getElem, takeGetElemOpt _ _ _ h5]
        cases hrt : resultTypes[i]? <;> simp [OpResultImpl.resultType]
      · unfold Operation.getOpResultImpl Operation.getOutOfLineOpResult
          Operation.create
        rw [if_neg h5]
        simp only
        rw [tagOutOfLine_getElem, dropGetElemOpt]
        have harith : OpResultImpl.getMaxInlineResults +
            (i - OpResultImpl.getMaxInlineResults) = i := by
          have := Nat.not_lt.mp h5
          omega
        rw [harith]
        cases hrt : resultTypes[i]? <;> simp [OpResultImpl.resultType]

/-- Witness for C5: a six-result operation with 2 successors and 3
regions reports its counts, and result 5 resolves through the
out-of-line path at out-of-line index 0. -/
theorem operation_layout_witness :
    (3 < 2 ^ 23) ∧
    (Operation.create c5Types 2 3).getNumResults = 6 ∧
    (Operation.create c5Types 2 3).getNumSuccessors = 2 ∧
    (Operation.create c5Types 2 3).getNumRegions = 3 ∧
    (Operation.create c5Types 2 3).getOpResultImpl 5 =
      (Operation.create c5Types 2 3).getOutOfLineOpResult 0 :=
  ⟨by decide,
   (operation_layout c5Types 2 3 (by decide)).1,
   (operation_layout c5Types 2 3 (by decide)).2.1,
   (operation_layout c5Types 2 3 (by decide)).2.2.1,
   by
    have h := ((operation_layout c5Types 2 3 (by decide)).2.2.2 5
      (by decide)).2.1 (by decide)
    simpa using h⟩

/-! Helper lemmas for the loaded-dialect-sorting claim. -/

theorem charListLt_asymm :
    ∀ (xs ys : List Char), charListLt xs ys = true → charListLt ys xs = false
  | [], [] => by intro h; simp [charListLt] at h
  | [], _ :: _ => by intro _; simp [charListLt]
  | _ :: _, [] => by intro h; simp [charListLt] at h
  | x :: xs, y :: ys => by
    intro h
    simp only [charListLt] at h ⊢
    by_cases h1 : x.toNat < y.toNat
    · rw [if_neg (by omega), if_pos h1]
    · by_cases h2 : y.toNat < x.toNat
      · rw [if_neg h1, if_pos h2] at h
        exact absurd h (by simp)
      · rw [if_neg h1, if_neg h2] at h
        rw [if_neg h2, if_neg h1]
        exact charListLt_asymm xs ys h

theorem charListLt_negtrans :
    ∀ (xs ys zs : List Char),
    charListLt xs ys = false → charListLt ys zs = false →
    charListLt xs zs = false
  | xs, ys, [] => by
    intro _ _
    cases xs <;> simp [charListLt]
  | xs, [], _ :: _ => by
    intro _ h2
    simp [charListLt] at h2
  | [], _ :: _, _ :: _ => by
    intro h1 _
    simp [charListLt] at h1
  | x :: xs, y :: ys, z :: zs => by
    intro h1 h2
    simp only [charListLt] at h1 h2 ⊢
    by_cases hxy : x.toNat < y.toNat
    · rw [if_pos hxy] at h1
      exact absurd h1 (by simp)
    · by_cases hyz : y.toNat < z.toNat
      · rw [if_pos hyz] at h2
        exact absurd h2 (by simp)
      · by_cases hxz : x.toNat < z.toNat
        · omega
        · rw [if_neg hxz]
          by_cases hzx : z.toNat < x.toNat
          · rw [if_pos hzx]
          · rw [if_neg hzx]
            have hyx : ¬ y.toNat < x.toNat := by omega
            have hzy : ¬ z.toNat < y.toNat := by omega
            rw [if_neg hxy, if_neg hyx] at h1
            rw [if_neg hyz, if_neg hzy] at h2
            exact charListLt_negtrans xs ys zs h1 h2

theorem stringLt_asymm (a b : String) (h : stringLt a b = true) :
    stringLt b a = false :=
  charListLt_asymm _ _ h

theorem stringLt_negtrans (a b c : String) (h1 : stringLt a b = false)
    (h2 : stringLt b c = false) : stringLt a c = false :=
  charListLt_negtrans _ _ _ h1 h2

theorem dialectOrderR_total (a b : Dialect) :
    dialectOrderR a b ∨ dialectOrderR b a := by
  unfold dialectOrderR cmpDialect
  cases h : stringLt a.dialectNamespace b.dialectNamespace with
  | false =>
    left
    simp
  | true =>
    right
    rw [stringLt_asymm _ _ h]
    simp

theorem dialectOrderR_trans (a b c : Dialect) (h1 : dialectOrderR a b)
    (h2 : dialectOrderR b c) : dialectOrderR a c := by
  unfold dialectOrderR cmpDialect at h1 h2 ⊢
  have f1 : stringLt a.dialectNamespace b.dialectNamespace = false := by
    cases h : stringLt a.dialectNamespace b.dialectNamespace
    · rfl
    · rw [h] at h1
      simp at h1
  have f2 : stringLt b.dialectNamespace c.dialectNamespace = false := by
    cases h : stringLt b.dialectNamespace c.dialectNamespace
    · rfl
    · rw [h] at h2
      simp at h2
  rw [stringLt_negtrans _ _ _ f1 f2]
  simp

/-- C10 counterexample: a context with the loaded dialects "apple" and
"banana" — `getLoadedDialects` returns them in an order that is not
ascending by namespace, because the comparator handed to
`array_pod_sort` converts the boolean `lhs < rhs` to the `int` 1/0,
which under the qsort convention orders larger namespaces first. -/
theorem getLoadedDialects_not_ascending :
    ascendingByNamespace (MLIRContext.getLoadedDialects c10Impl) = false := by
  decide

/-- C10 (amended: the order is descending, not ascending): when no
dialect load is in flight, `getLoadedDialects` returns a permutation of
the loaded dialect pointers — exactly one per loaded dialect — sorted
so that each namespace is not ordered below its successor's, i.e. in
descending namespace order under the bool-to-int comparator the source
passes to `array_pod_sort`. -/
theorem getLoadedDialects_descending (impl : MLIRContextImpl)
    (hnl : impl.loadedDialects.all (fun p => p.2.isSome) = true) :
    (MLIRContext.getLoadedDialects impl).Perm
      (impl.loadedDialects.filterMap (·.2)) ∧
    List.Sorted (fun a b : Dialect =>
        stringLt a.dialectNamespace b.dialectNamespace = false)
      (MLIRContext.getLoadedDialects impl) := by
  constructor
  · exact List.perm_insertionSort dialectOrderR _
  · haveI htot : IsTotal Dialect dialectOrderR := ⟨dialectOrderR_total⟩
    haveI htrans : IsTrans Dialect dialectOrderR :=
      ⟨fun a b c => dialectOrderR_trans a b c⟩
    have hs := List.sorted_insertionSort dialectOrderR
      (impl.loadedDialects.filterMap (·.2))
    unfold MLIRContext.getLoadedDialects
    refine List.Pairwise.imp ?_ hs
    intro a b hab
    unfold dialectOrderR cmpDialect at hab
    cases h : stringLt a.dialectNamespace b.dialectNamespace
    · rfl
    · rw [h] at hab
      simp at hab

/-- Witness for C10: on the concrete two-dialect context the result is
a permutation of the loaded dialects (and in fact is
`[banana, apple]`). -/
theorem getLoadedDialects_descending_witness :
    (c10Impl.loadedDialects.all (fun p => p.2.isSome) = true) ∧
    MLIRContext.getLoadedDialects c10Impl = [c10DialectB, c10DialectA] ∧
    (MLIRContext.getLoadedDialects c10Impl).Perm
      (c10Impl.loadedDialects.filterMap (·.2)) :=
  ⟨rfl, by decide, (getLoadedDialects_descending c10Impl rfl).1⟩

end Mlir
